import Mathlib

/-!
# Verification of the Codex session-orchestration router

Shallow embedding of the Codex chat/login orchestration code of the
repository (provider-session registry, active-stream registry, login-session
registry) together with proofs of the specification claims about it.

JavaScript strings are modelled as Lean `String` (`List Char` underneath);
the in-memory `Map`s are modelled either as functions `String → Option α`
(when iteration order is unobservable) or as association lists in insertion
order (for the login-session registry, whose iteration order is observable
through `getActiveLoginSession`).  Spawned processes, abort controllers and
ACP provider handles are given numeric identities; aborting a controller or
cleaning up a provider records that identity in a ledger inside the state.
-/

/-! ## Basic string helpers (JS string primitives used by the router) -/

/-- Characters treated as whitespace by the JavaScript operations the code
uses (`String.prototype.trim`, the `\s` regex class).  Modelled as the ASCII
whitespace characters together with NBSP; the more exotic Unicode space
characters never occur in the inputs of the claims. -/
def isJsSpace (c : Char) : Bool :=
  c = ' ' || c = '\t' || c = '\n' || c = '\r' ||
  c = Char.ofNat 11 || c = Char.ofNat 12 || c = Char.ofNat 0xA0

/-- `String.prototype.trim` on the underlying character list. -/
def jsTrimList (l : List Char) : List Char :=
  ((l.dropWhile isJsSpace).reverse.dropWhile isJsSpace).reverse

/-- `String.prototype.trim`. -/
def jsTrim (s : String) : String :=
  String.mk (jsTrimList s.data)

/-- ASCII `String.prototype.toLowerCase`. -/
def toLowerStr (s : String) : String :=
  String.mk (s.data.map Char.toLower)

/-- Remainder of the second list after removing the first list as a prefix,
if it is one.  Models `startsWith` + `slice`. -/
def dropPrefixList : List Char → List Char → Option (List Char)
  | [], s => some s
  | _ :: _, [] => none
  | p :: ps, c :: cs => if p = c then dropPrefixList ps cs else none

/-- `s.startsWith(p) ? s.slice(p.length) : null` on strings. -/
def dropPrefixStr (p s : String) : Option String :=
  (dropPrefixList p.data s.data).map String.mk

/-- Does `l` end with the given suffix? -/
def endsWithList (suffix l : List Char) : Bool :=
  (dropPrefixList suffix.reverse l.reverse).isSome

/-! ## ANSI stripping

The source code removes ANSI sequences with two global regex replacements:

* `ANSI_OSC_REGEX` (applied first): `ESC ]`, then any characters other than
  BEL, terminated by BEL or by `ESC` backslash;
* `ANSI_ESCAPE_REGEX` (applied second): `ESC [`, then parameter bytes
  (0x30..0x3F), then intermediate bytes (0x20..0x2F), then one final byte
  (0x40..0x7E).

A global JavaScript `replace` performs one left-to-right scan: at each
position it removes the (greedy) match starting there, if any, and resumes
scanning immediately after the removed text.  The functions below implement
exactly that scan.  The character classes of the CSI regex are disjoint, so
its greedy match is the straightforward one; the greedy OSC match ends at
the first BEL after `ESC ]` when one exists, and otherwise at the last
`ESC \`-pair (backtracking from the longest candidate). -/

def escChar : Char := Char.ofNat 27

def belChar : Char := Char.ofNat 7

/-- Parameter bytes (0x30..0x3F) of a CSI sequence. -/
def isCsiParamByte (c : Char) : Bool :=
  0x30 ≤ c.toNat && c.toNat ≤ 0x3F

/-- Intermediate bytes (0x20..0x2F) of a CSI sequence. -/
def isCsiInterByte (c : Char) : Bool :=
  0x20 ≤ c.toNat && c.toNat ≤ 0x2F

/-- Final bytes (0x40..0x7E) of a CSI sequence. -/
def isCsiFinalByte (c : Char) : Bool :=
  0x40 ≤ c.toNat && c.toNat ≤ 0x7E

/-- If a CSI sequence (`ANSI_ESCAPE_REGEX`) matches at the head of the list,
return the remainder after the match. -/
def matchCsiAt (l : List Char) : Option (List Char) :=
  match l with
  | c1 :: c2 :: rest =>
    if c1 = escChar ∧ c2 = '[' then
      let afterParams := rest.dropWhile isCsiParamByte
      let afterInter := afterParams.dropWhile isCsiInterByte
      match afterInter with
      | f :: tail => if isCsiFinalByte f then some tail else none
      | [] => none
    else none
  | _ => none

/-- Remainder after the first BEL character, if any. -/
def afterFirstBel : List Char → Option (List Char)
  | [] => none
  | c :: cs => if c = belChar then some cs else afterFirstBel cs

/-- Remainder after the last `ESC \` pair, if any. -/
def afterLastStringTerm : List Char → Option (List Char)
  | [] => none
  | c :: cs =>
    match afterLastStringTerm cs with
    | some r => some r
    | none =>
      if c = escChar then
        match cs with
        | b :: rest => if b = '\\' then some rest else none
        | [] => none
      else none

/-- If an OSC sequence (`ANSI_OSC_REGEX`) matches at the head of the list,
return the remainder after the (greedy) match. -/
def matchOscAt (l : List Char) : Option (List Char) :=
  match l with
  | c1 :: c2 :: rest =>
    if c1 = escChar ∧ c2 = ']' then
      match afterFirstBel rest with
      | some r => some r
      | none => afterLastStringTerm rest
    else none
  | _ => none

/-- One global-replace scan removing CSI matches.  The fuel argument only
makes the recursion structural; every removed match consumes at least one
character, so `fuel = l.length` always suffices. -/
def stripCsiFuel : Nat → List Char → List Char
  | 0, l => l
  | _ + 1, [] => []
  | fuel + 1, c :: cs =>
    match matchCsiAt (c :: cs) with
    | some r => stripCsiFuel fuel r
    | none => c :: stripCsiFuel fuel cs

def stripCsiList (l : List Char) : List Char :=
  stripCsiFuel l.length l

/-- One global-replace scan removing OSC matches. -/
def stripOscFuel : Nat → List Char → List Char
  | 0, l => l
  | _ + 1, [] => []
  | fuel + 1, c :: cs =>
    match matchOscAt (c :: cs) with
    | some r => stripOscFuel fuel r
    | none => c :: stripOscFuel fuel cs

def stripOscList (l : List Char) : List Char :=
  stripOscFuel l.length l

/-- `stripAnsi` from the router: OSC replacement first, then CSI. -/
def stripAnsi (input : String) : String :=
  String.mk (stripCsiList (stripOscList input.data))

/-- Does the string contain (at any position) a match of either ANSI regex?
Used to express "the output is ANSI-free". -/
def hasAnsiSeqList : List Char → Bool
  | [] => false
  | c :: cs =>
    (matchCsiAt (c :: cs)).isSome || (matchOscAt (c :: cs)).isSome ||
      hasAnsiSeqList cs

def hasAnsiSequence (s : String) : Bool :=
  hasAnsiSeqList s.data

/-! ## URL extraction for the login flow

`extractFirstNonLocalhostUrl` scans the (re-stripped) accumulated output
with `URL_CANDIDATE_REGEX = https?, colon, two slashes, then one or more
non-whitespace characters` (global), cleans each candidate (trim, strip a
trailing run of the punctuation characters close-paren comma period
semicolon bang question-mark), parses it with the platform WHATWG `URL`
constructor, and returns the first candidate whose hostname is not a
localhost name. -/

/-- Split off a leading `http://` or `https://` scheme part, returning the
scheme characters and the remainder.  The optional `s` of the regex is
greedy, so the `https` alternative is tried first. -/
def schemeSplit : List Char → Option (List Char × List Char)
  | 'h' :: 't' :: 't' :: 'p' :: 's' :: ':' :: '/' :: '/' :: r =>
    some (['h', 't', 't', 'p', 's', ':', '/', '/'], r)
  | 'h' :: 't' :: 't' :: 'p' :: ':' :: '/' :: '/' :: r =>
    some (['h', 't', 't', 'p', ':', '/', '/'], r)
  | _ => none

/-- All matches of `URL_CANDIDATE_REGEX` in scan order: a global regex scan
that, on each match, resumes immediately after it.  The fuel argument makes
the recursion structural; each step consumes at least one character, so
`fuel = l.length` suffices. -/
def findUrlFuel : Nat → List Char → List (List Char)
  | 0, _ => []
  | _ + 1, [] => []
  | fuel + 1, c :: cs =>
    match schemeSplit (c :: cs) with
    | some (scheme, rest) =>
      let body := rest.takeWhile (fun ch => !isJsSpace ch)
      if body.isEmpty then findUrlFuel fuel cs
      else (scheme ++ body) :: findUrlFuel fuel (rest.drop body.length)
    | none => findUrlFuel fuel cs

def findUrlCandidates (l : List Char) : List (List Char) :=
  findUrlFuel l.length l

/-- Trailing punctuation stripped from a URL candidate before parsing. -/
def isTrailingPunct (c : Char) : Bool :=
  c = ')' || c = ',' || c = '.' || c = ';' || c = '!' || c = '?'

def trimTrailingPunct (l : List Char) : List Char :=
  (l.reverse.dropWhile isTrailingPunct).reverse

/-- Remainder of the list after its last `@`, or the whole list when it has
none (WHATWG authority parsing: userinfo ends at the last `@`). -/
def afterLastAtSign (l : List Char) : List Char :=
  (l.reverse.takeWhile (fun c => c ≠ '@')).reverse

/-- Modelled platform behaviour: hostname extraction of the WHATWG `URL`
constructor (`new URL(candidate).hostname`), restricted to the aspects the
router relies on for its `http`/`https` candidates: the authority runs up to
the first slash, backslash, `?` or `#`; userinfo before the last `@` is
dropped; a bracketed IPv6 host keeps its brackets and must be closed; an
ordinary host ends at the port colon and the port must be digits; an empty
host is a parse failure (`new URL` throws).  The ASCII hostname is
lowercased as WHATWG does.  IDNA/punycode mapping, percent-decoding and
full host validation are not modelled. -/
def parseUrlHostname (l : List Char) : Option (List Char) :=
  match schemeSplit l with
  | none => none
  | some (_, rest) =>
    let authority :=
      rest.takeWhile (fun c => c ≠ '/' && c ≠ '\\' && c ≠ '?' && c ≠ '#')
    let hostport := afterLastAtSign authority
    match hostport with
    | '[' :: t =>
      if t.contains ']' then
        let inside := t.takeWhile (fun c => c ≠ ']')
        let afterBracket := (t.dropWhile (fun c => c ≠ ']')).drop 1
        match afterBracket with
        | [] => some ('[' :: inside ++ [']'])
        | ':' :: p =>
          if p.all (fun c => c.isDigit) then some ('[' :: inside ++ [']'])
          else none
        | _ => none
      else none
    | _ =>
      let host := hostport.takeWhile (fun c => c ≠ ':')
      let afterHost := hostport.dropWhile (fun c => c ≠ ':')
      if host.isEmpty then none
      else
        match afterHost with
        | [] => some (host.map Char.toLower)
        | ':' :: p =>
          if p.all (fun c => c.isDigit) then some (host.map Char.toLower)
          else none
        | _ => none

/-- `isLocalhostHostname` from the router. -/
def isLocalhostHostname (hostname : String) : Bool :=
  let normalized := toLowerStr (jsTrim hostname)
  normalized == "localhost" || normalized == "127.0.0.1" ||
  normalized == "::1" || normalized == "[::1]" ||
  endsWithList ".localhost".data normalized.data

/-- The loop body of `extractFirstNonLocalhostUrl`: clean each candidate,
parse it, skip parse failures and localhost hostnames, and return the first
survivor.  The WHATWG serialisation performed by `URL#toString` (scheme and
host lowercasing, path normalisation) is not modelled; the cleaned candidate
itself is returned, which is what every claim quantifies over. -/
def firstNonLocalhost : List (List Char) → Option String
  | [] => none
  | cand :: rest =>
    let cleaned := trimTrailingPunct (jsTrimList cand)
    match parseUrlHostname cleaned with
    | some host =>
      if isLocalhostHostname (String.mk host) then firstNonLocalhost rest
      else some (String.mk cleaned)
    | none => firstNonLocalhost rest

/-- `extractFirstNonLocalhostUrl` from the router. -/
def extractFirstNonLocalhostUrl (output : String) : Option String :=
  firstNonLocalhost (findUrlCandidates (stripAnsi output).data)

/-! ## Login sessions -/

/-- The four session states of the `CodexLoginSessionState` union type. -/
inductive CodexLoginSessionState
  | running
  | success
  | error
  | cancelled
deriving DecidableEq

/-- A spawned CLI process handle: its identity and whether `kill` has been
called on it (`ChildProcess#killed`). -/
structure ProcHandle where
  pid : Nat
  killed : Bool
deriving DecidableEq

/-- `CodexLoginSession` from the router (`process` is `null` or a handle). -/
structure CodexLoginSession where
  id : String
  process : Option ProcHandle
  state : CodexLoginSessionState
  output : String
  url : Option String
  error : Option String
  exitCode : Option Int
deriving DecidableEq

/-- `toLoginSessionResponse` result shape. -/
structure CodexLoginSessionResponse where
  sessionId : String
  state : CodexLoginSessionState
  url : Option String
  output : String
  error : Option String
  exitCode : Option Int
deriving DecidableEq

/-- `toLoginSessionResponse` from the router. -/
def toLoginSessionResponse (session : CodexLoginSession) :
    CodexLoginSessionResponse :=
  { sessionId := session.id
    state := session.state
    url := session.url
    output := session.output
    error := session.error
    exitCode := session.exitCode }

/-- `appendLoginOutput` from the router: strip the chunk, ignore it when the
stripped chunk is empty (JS falsiness of the empty string), otherwise extend
the accumulated output and, while no URL has been surfaced yet, rescan the
whole accumulated output. -/
def appendLoginOutput (session : CodexLoginSession) (chunk : String) :
    CodexLoginSession :=
  let cleanChunk := stripAnsi chunk
  if cleanChunk.isEmpty then session
  else
    let newOutput := session.output ++ cleanChunk
    { session with
      output := newOutput
      url :=
        match session.url with
        | none => extractFirstNonLocalhostUrl newOutput
        | some u => some u }

/-- The session created by `startLogin` right after spawning the CLI. -/
def freshLoginSession (sessionId : String) (pid : Nat) : CodexLoginSession :=
  { id := sessionId
    process := some { pid := pid, killed := false }
    state := CodexLoginSessionState.running
    output := ""
    url := none
    error := none
    exitCode := none }

/-- The `close` handler installed by `startLogin`: record the exit code,
drop the process handle, and—unless the session was cancelled—mark success
on exit code 0 and error otherwise (keeping an earlier error message). -/
def handleClose (session : CodexLoginSession) (exitCode : Option Int) :
    CodexLoginSession :=
  let s1 := { session with exitCode := exitCode, process := none }
  if s1.state = CodexLoginSessionState.cancelled then s1
  else if exitCode = some 0 then
    { s1 with state := CodexLoginSessionState.success, error := none }
  else
    { s1 with
      state := CodexLoginSessionState.error
      error := some (s1.error.getD
        ("Codex login exited with code " ++
          (match exitCode with
           | some n => toString n
           | none => "unknown"))) }

/-- The `error` handler installed by `startLogin` (spawn failure). -/
def handleSpawnFailure (session : CodexLoginSession) (message : String) :
    CodexLoginSession :=
  { session with
    state := CodexLoginSessionState.error
    error := some ("[codex] Failed to start login flow: " ++ message)
    process := none }

/-- The session mutation performed by the `cancelLogin` procedure on a found
session: mark it cancelled, clear the error, and send SIGTERM when a live
process is attached (which sets `ChildProcess#killed`). -/
def cancelLoginSession (session : CodexLoginSession) : CodexLoginSession :=
  let s1 :=
    { session with
      state := CodexLoginSessionState.cancelled
      error := none }
  match s1.process with
  | some p => if p.killed then s1 else { s1 with process := some { p with killed := true } }
  | none => s1

/-! ## The login-session registry

`loginSessions` is a JS `Map` whose iteration order (insertion order) is
observable through `getActiveLoginSession`, so it is modelled as an
association list in insertion order. -/

/-- `Map#get`. -/
def lookupA {α : Type} : List (String × α) → String → Option α
  | [], _ => none
  | (k, v) :: rest, key => if k = key then some v else lookupA rest key

/-- `Map#set`: replace in place when the key is present, else append. -/
def insertA {α : Type} : List (String × α) → String → α → List (String × α)
  | [], key, v => [(key, v)]
  | (k, w) :: rest, key, v =>
    if k = key then (key, v) :: rest else (k, w) :: insertA rest key v

/-- `getActiveLoginSession` from the router: the first session (in insertion
order) that is running with a live, un-killed process. -/
def getActiveLoginSession :
    List (String × CodexLoginSession) → Option CodexLoginSession
  | [] => none
  | (_, session) :: rest =>
    match session.process with
    | some p =>
      if session.state = CodexLoginSessionState.running ∧ p.killed = false then
        some session
      else getActiveLoginSession rest
    | none => getActiveLoginSession rest

/-- Result of the `startLogin` mutation: the updated registry, the response
returned to the client, and whether a new CLI process was spawned. -/
structure StartLoginResult where
  sessions : List (String × CodexLoginSession)
  response : CodexLoginSessionResponse
  spawned : Bool
deriving DecidableEq

/-- `startLogin` from the router.  `freshId` models `crypto.randomUUID()`
and `freshPid` the identity of the process that would be spawned. -/
def startLogin (sessions : List (String × CodexLoginSession))
    (freshId : String) (freshPid : Nat) : StartLoginResult :=
  match getActiveLoginSession sessions with
  | some existingSession =>
    { sessions := sessions
      response := toLoginSessionResponse existingSession
      spawned := false }
  | none =>
    let session := freshLoginSession freshId freshPid
    { sessions := insertA sessions freshId session
      response := toLoginSessionResponse session
      spawned := true }

/-- `getLoginSession` from the router; `none` models the thrown
"Codex login session not found" error. -/
def getLoginSession (sessions : List (String × CodexLoginSession))
    (sessionId : String) : Option CodexLoginSessionResponse :=
  (lookupA sessions sessionId).map toLoginSessionResponse

/-- The asynchronous events that can reach a login session after it has
been created: an output chunk on stdout/stderr, or the process closing. -/
inductive LoginEvent
  | chunk (c : String)
  | closed (exitCode : Option Int)

def applyLoginEvent (session : CodexLoginSession) :
    LoginEvent → CodexLoginSession
  | LoginEvent.chunk c => appendLoginOutput session c
  | LoginEvent.closed ec => handleClose session ec

/-- Login sessions reachable through the operations of the router. -/
inductive LoginReachable : CodexLoginSession → Prop
  | init (sessionId : String) (pid : Nat) :
      LoginReachable (freshLoginSession sessionId pid)
  | chunk {s : CodexLoginSession} (c : String) :
      LoginReachable s → LoginReachable (appendLoginOutput s c)
  | failed {s : CodexLoginSession} (message : String) :
      LoginReachable s → LoginReachable (handleSpawnFailure s message)
  | closed {s : CodexLoginSession} (ec : Option Int) :
      LoginReachable s → LoginReachable (handleClose s ec)
  | cancelled {s : CodexLoginSession} :
      LoginReachable s → LoginReachable (cancelLoginSession s)

/-! ## SHA-256 (Node `createHash("sha256").update(key).digest("hex")`)

A direct implementation of FIPS 180-4 over the UTF-8 bytes of the string,
with 32-bit words represented as `Nat` reduced modulo `2 ^ 32`. -/

def pow32 : Nat := 4294967296

def add32 (a b : Nat) : Nat := (a + b) % pow32

def not32 (x : Nat) : Nat := 4294967295 - x % pow32

def rotr32 (n x : Nat) : Nat :=
  ((x >>> n) ||| ((x <<< (32 - n)) % pow32)) % pow32

def bigSigma0 (x : Nat) : Nat := rotr32 2 x ^^^ rotr32 13 x ^^^ rotr32 22 x

def bigSigma1 (x : Nat) : Nat := rotr32 6 x ^^^ rotr32 11 x ^^^ rotr32 25 x

def smallSigma0 (x : Nat) : Nat := rotr32 7 x ^^^ rotr32 18 x ^^^ (x >>> 3)

def smallSigma1 (x : Nat) : Nat := rotr32 17 x ^^^ rotr32 19 x ^^^ (x >>> 10)

def chFun (x y z : Nat) : Nat := (x &&& y) ^^^ (not32 x &&& z)

def majFun (x y z : Nat) : Nat := (x &&& y) ^^^ (x &&& z) ^^^ (y &&& z)

/-- UTF-8 encoding of one scalar value. -/
def utf8BytesOfChar (c : Char) : List Nat :=
  let n := c.toNat
  if n < 0x80 then [n]
  else if n < 0x800 then [0xC0 + n / 64, 0x80 + n % 64]
  else if n < 0x10000 then
    [0xE0 + n / 4096, 0x80 + (n / 64) % 64, 0x80 + n % 64]
  else
    [0xF0 + n / 262144, 0x80 + (n / 4096) % 64, 0x80 + (n / 64) % 64,
      0x80 + n % 64]

def utf8Encode (s : String) : List Nat :=
  s.data.foldr (fun c acc => utf8BytesOfChar c ++ acc) []

def beBytes8 (n : Nat) : List Nat :=
  [(n >>> 56) % 256, (n >>> 48) % 256, (n >>> 40) % 256, (n >>> 32) % 256,
    (n >>> 24) % 256, (n >>> 16) % 256, (n >>> 8) % 256, n % 256]

/-- FIPS 180-4 padding: append `0x80`, zeros to 56 mod 64, then the bit
length as eight big-endian bytes. -/
def sha256Pad (msg : List Nat) : List Nat :=
  let len := msg.length
  let zeros := (119 - len % 64) % 64
  msg ++ [128] ++ List.replicate zeros 0 ++ beBytes8 (len * 8)

def bytesToWords : List Nat → List Nat
  | b0 :: b1 :: b2 :: b3 :: rest =>
    (((b0 * 256 + b1) * 256 + b2) * 256 + b3) :: bytesToWords rest
  | _ => []

def wordChunks : List Nat → List (List Nat)
  | [] => []
  | w :: ws => (w :: ws).take 16 :: wordChunks ((w :: ws).drop 16)
termination_by l => l.length
decreasing_by
  simp only [List.length_drop, List.length_cons]
  omega

def sha256K : List Nat :=
  [1116352408, 1899447441, 3049323471, 3921009573, 961987163,
   1508970993, 2453635748, 2870763221, 3624381080, 310598401,
   607225278, 1426881987, 1925078388, 2162078206, 2614888103,
   3248222580, 3835390401, 4022224774, 264347078, 604807628,
   770255983, 1249150122, 1555081692, 1996064986, 2554220882,
   2821834349, 2952996808, 3210313671, 3336571891, 3584528711,
   113926993, 338241895, 666307205, 773529912, 1294757372,
   1396182291, 1695183700, 1986661051, 2177026350, 2456956037,
   2730485921, 2820302411, 3259730800, 3345764771, 3516065817,
   3600352804, 4094571909, 275423344, 430227734, 506948616,
   659060556, 883997877, 958139571, 1322822218, 1537002063,
   1747873779, 1955562222, 2024104815, 2227730452, 2361852424,
   2428436474, 2756734187, 3204031479, 3329325298]

def sha256H0 : List Nat :=
  [1779033703, 3144134277, 1013904242, 2773480762, 1359893119,
   2600822924, 528734635, 1541459225]

/-- Extend a 16-word block to the 64-word message schedule. -/
def extendLoop : Nat → List Nat → List Nat
  | 0, acc => acc
  | n + 1, acc =>
    let i := acc.length
    let w :=
      add32 (add32 (smallSigma1 (acc.getD (i - 2) 0)) (acc.getD (i - 7) 0))
        (add32 (smallSigma0 (acc.getD (i - 15) 0)) (acc.getD (i - 16) 0))
    extendLoop n (acc ++ [w])

def sha256Schedule (block : List Nat) : List Nat :=
  extendLoop 48 block

/-- The 64-round compression loop on the state `[a,b,c,d,e,f,g,h]`. -/
def compressLoop : List (Nat × Nat) → List Nat → List Nat
  | [], st => st
  | (k, w) :: rest, st =>
    match st with
    | [a, b, c, d, e, f, g, h] =>
      let t1 := add32 h (add32 (bigSigma1 e) (add32 (chFun e f g) (add32 k w)))
      let t2 := add32 (bigSigma0 a) (majFun a b c)
      compressLoop rest [add32 t1 t2, a, b, c, add32 d t1, e, f, g]
    | _ => st

def sha256ProcessBlock (h : List Nat) (block : List Nat) : List Nat :=
  let st := compressLoop (sha256K.zip (sha256Schedule block)) h
  (h.zip st).map (fun p => add32 p.1 p.2)

def sha256Words (msg : List Nat) : List Nat :=
  (wordChunks (bytesToWords (sha256Pad msg))).foldl sha256ProcessBlock sha256H0

def hexDigit (n : Nat) : Char :=
  if n < 10 then Char.ofNat (48 + n) else Char.ofNat (87 + n)

def toHexWord (w : Nat) : List Char :=
  (List.range 8).map (fun i => hexDigit ((w >>> (28 - 4 * i)) % 16))

/-- Lowercase hex SHA-256 digest of the UTF-8 bytes of a string. -/
def sha256Hex (s : String) : String :=
  String.mk ((sha256Words (utf8Encode s)).foldr (fun w acc => toHexWord w ++ acc) [])

/-! ## Provider sessions and active streams

State shared by the `chat` subscription and the `cancel` and `cleanup`
mutations.  `providerSessions` and `activeStreams` are JS `Map`s whose
iteration order is never observed, so they are modelled as functions.
Aborting an abort controller or calling `provider.cleanup()` is recorded by
adding the identity of the controller or provider to a ledger. -/

/-- A map keyed by strings with unobservable iteration order. -/
def MapStr (α : Type) : Type := String → Option α

def MapStr.emptyMap {α : Type} : MapStr α := fun _ => none

/-- `Map#set`. -/
def MapStr.setKey {α : Type} (m : MapStr α) (k : String) (v : α) : MapStr α :=
  fun q => if q = k then some v else m q

/-- `Map#delete`. -/
def MapStr.delKey {α : Type} (m : MapStr α) (k : String) : MapStr α :=
  fun q => if q = k then none else m q

/-- `CodexProviderSession` from the router: the ACP provider handle (its
identity) together with the working directory and auth fingerprint it was
created for. -/
structure CodexProviderSession where
  providerId : Nat
  cwd : String
  authFingerprint : Option String
deriving DecidableEq

/-- `ActiveCodexStream` from the router: the caller-supplied run id and the
abort controller (its identity) of the in-flight generation. -/
structure ActiveCodexStream where
  runId : String
  controllerId : Nat
deriving DecidableEq

/-- The module-level mutable state of the router, plus the two event
ledgers and a counter supplying fresh identities. -/
structure CodexState where
  providerSessions : MapStr CodexProviderSession
  activeStreams : MapStr ActiveCodexStream
  abortedControllers : List Nat
  cleanedProviders : List Nat
  nextId : Nat

/-- `AbortController#abort` on the controller with the given identity. -/
def abortCtrl (s : CodexState) (controllerId : Nat) : CodexState :=
  { s with abortedControllers := controllerId :: s.abortedControllers }

/-- `getAuthFingerprint` from the router: `null` when no key survives
trimming, else the SHA-256 hex digest of the trimmed key.  The `authConfig`
argument models the optional `{ apiKey }` object. -/
def getAuthFingerprint (authConfig : Option String) : Option String :=
  match authConfig with
  | none => none
  | some apiKey =>
    let trimmed := jsTrim apiKey
    if trimmed.isEmpty then none else some (sha256Hex trimmed)

/-- `cleanupProvider` from the router: clean up and drop the provider
session of the sub-chat, when there is one. -/
def cleanupProvider (s : CodexState) (subChatId : String) : CodexState :=
  match s.providerSessions subChatId with
  | none => s
  | some existing =>
    { s with
      cleanedProviders := existing.providerId :: s.cleanedProviders
      providerSessions := MapStr.delKey s.providerSessions subChatId }

/-- Result of `getOrCreateProvider`: the updated state and the identity of
the returned provider. -/
structure GetProviderResult where
  state : CodexState
  providerId : Nat

/-- The tail of `getOrCreateProvider`: `createACPProvider` plus registering
the new session.  The created provider receives a fresh identity; its
command line, environment, auth method and resumed session id have no
further observable effect on the registries and are not recorded. -/
def createProviderSession (s : CodexState) (subChatId cwd : String)
    (authFingerprint : Option String) : GetProviderResult :=
  let providerId := s.nextId
  { state :=
      { s with
        nextId := providerId + 1
        providerSessions :=
          MapStr.setKey s.providerSessions subChatId
            { providerId := providerId, cwd := cwd,
              authFingerprint := authFingerprint } }
    providerId := providerId }

/-- `getOrCreateProvider` from the router: reuse the cached provider only
when both the working directory and the auth fingerprint match; otherwise
clean up any cached provider and create (and register) a new one. -/
def getOrCreateProvider (s : CodexState) (subChatId cwd : String)
    (authConfig : Option String) : GetProviderResult :=
  let authFingerprint := getAuthFingerprint authConfig
  match s.providerSessions subChatId with
  | some existing =>
    if existing.cwd = cwd ∧ existing.authFingerprint = authFingerprint then
      { state := s, providerId := existing.providerId }
    else
      let s1 :=
        { s with
          cleanedProviders := existing.providerId :: s.cleanedProviders
          providerSessions := MapStr.delKey s.providerSessions subChatId }
      createProviderSession s1 subChatId cwd authFingerprint
  | none => createProviderSession s subChatId cwd authFingerprint

/-- Result of the synchronous part of the `chat` subscription: the updated
state and the identity of the freshly created abort controller. -/
structure ChatSubscribeResult where
  state : CodexState
  controllerId : Nat

/-- The synchronous prologue of the `chat` subscription: when another
stream is registered for the sub-chat, abort its controller and tear down
the provider session of the sub-chat; then register the id of this run with a fresh
abort controller. -/
def chatSubscribe (s : CodexState) (subChatId runId : String) :
    ChatSubscribeResult :=
  let s1 :=
    match s.activeStreams subChatId with
    | none => s
    | some existingStream =>
      cleanupProvider (abortCtrl s existingStream.controllerId) subChatId
  let controllerId := s1.nextId
  { state :=
      { s1 with
        nextId := controllerId + 1
        activeStreams :=
          MapStr.setKey s1.activeStreams subChatId
            { runId := runId, controllerId := controllerId } }
    controllerId := controllerId }

/-- The `finally` block of the `chat` subscription body: drop the registry
entry only when it still carries the id of this run. -/
def chatFinally (s : CodexState) (subChatId runId : String) : CodexState :=
  match s.activeStreams subChatId with
  | some entry =>
    if entry.runId = runId then
      { s with activeStreams := MapStr.delKey s.activeStreams subChatId }
    else s
  | none => s

/-- The teardown function returned by the `chat` observable: abort this
own controller of this run, then drop the registry entry only when it
still carries the id of this run. -/
def chatTeardown (s : CodexState) (subChatId runId : String)
    (controllerId : Nat) : CodexState :=
  chatFinally (abortCtrl s controllerId) subChatId runId

/-- The result object of the `cancel` mutation. -/
structure CancelResult where
  cancelled : Bool
  ignoredStale : Bool
deriving DecidableEq

/-- The `cancel` mutation from the router. -/
def cancelRun (s : CodexState) (subChatId runId : String) :
    CodexState × CancelResult :=
  match s.activeStreams subChatId with
  | none => (s, { cancelled := false, ignoredStale := false })
  | some activeStream =>
    if activeStream.runId ≠ runId then
      (s, { cancelled := false, ignoredStale := true })
    else
      let s1 := abortCtrl s activeStream.controllerId
      let s2 := cleanupProvider s1 subChatId
      ({ s2 with activeStreams := MapStr.delKey s2.activeStreams subChatId },
        { cancelled := true, ignoredStale := false })

/-- `preprocessCodexModelName` from the router. -/
def preprocessCodexModelName (modelId : String) (authConfig : Option String) :
    String :=
  let hasAppManagedApiKey :=
    match authConfig with
    | some apiKey => !(jsTrim apiKey).isEmpty
    | none => false
  if hasAppManagedApiKey = false then modelId
  else if modelId = "gpt-5.3-codex" then "gpt-5.2-codex/high"
  else
    match dropPrefixStr "gpt-5.3-codex/" modelId with
    | some requestedThinking =>
      let normalizedThinking :=
        if requestedThinking = "low" ∨ requestedThinking = "medium" ∨
            requestedThinking = "high" ∨ requestedThinking = "xhigh" then
          requestedThinking
        else "high"
      "gpt-5.2-codex/" ++ normalizedThinking
    | none => modelId

/-! ## Helper lemmas -/

theorem strMkData (s : String) : String.mk s.data = s := rfl

theorem mapStrSetSelf {α : Type} (m : MapStr α) (k : String) (v : α) :
    MapStr.setKey m k v k = some v := by
  simp [MapStr.setKey]

theorem mapStrDelSelf {α : Type} (m : MapStr α) (k : String) :
    MapStr.delKey m k k = none := by
  simp [MapStr.delKey]

theorem lookupInsertSelf {α : Type} (m : List (String × α)) (k : String)
    (v : α) : lookupA (insertA m k v) k = some v := by
  induction m with
  | nil => simp [insertA, lookupA]
  | cons head rest ih =>
    obtain ⟨hk, hv⟩ := head
    by_cases h : hk = k
    · simp [insertA, lookupA, h]
    · simp [insertA, lookupA, h, ih]

theorem appendOutputEq (session : CodexLoginSession) (chunk : String) :
    (appendLoginOutput session chunk).output =
      session.output ++ stripAnsi chunk := by
  by_cases hc : (stripAnsi chunk).isEmpty
  · rw [(String.isEmpty_iff (stripAnsi chunk)).mp hc]
    simp [appendLoginOutput, hc, String.append_empty]
  · simp [appendLoginOutput, hc]

theorem appendStateEq (session : CodexLoginSession) (chunk : String) :
    (appendLoginOutput session chunk).state = session.state := by
  by_cases hc : (stripAnsi chunk).isEmpty <;> simp [appendLoginOutput, hc]

theorem handleCloseUrl (session : CodexLoginSession) (ec : Option Int) :
    (handleClose session ec).url = session.url := by
  unfold handleClose
  by_cases h : session.state = CodexLoginSessionState.cancelled
  · simp [h]
  · by_cases h0 : ec = some 0 <;> simp [h, h0]

theorem handleCloseOutput (session : CodexLoginSession) (ec : Option Int) :
    (handleClose session ec).output = session.output := by
  unfold handleClose
  by_cases h : session.state = CodexLoginSessionState.cancelled
  · simp [h]
  · by_cases h0 : ec = some 0 <;> simp [h, h0]

theorem cancelSessionUrl (session : CodexLoginSession) :
    (cancelLoginSession session).url = session.url := by
  unfold cancelLoginSession
  cases h : session.process with
  | none => simp [h]
  | some p => by_cases hk : p.killed = true <;> simp [h, hk]

theorem cancelSessionOutput (session : CodexLoginSession) :
    (cancelLoginSession session).output = session.output := by
  unfold cancelLoginSession
  cases h : session.process with
  | none => simp [h]
  | some p => by_cases hk : p.killed = true <;> simp [h, hk]

/-- Invariant: while no URL has been surfaced on a reachable login session,
the accumulated output holds no non-localhost URL either (otherwise it would
have been surfaced by the rescan that extended the output). -/
theorem loginUrlNoneInv {s : CodexLoginSession} (h : LoginReachable s) :
    s.url = none → extractFirstNonLocalhostUrl s.output = none := by
  induction h with
  | init sessionId pid =>
    intro _
    show extractFirstNonLocalhostUrl "" = none
    decide
  | @chunk s c h ih =>
    intro hurl
    by_cases hc : (stripAnsi c).isEmpty
    · simp only [appendLoginOutput, hc, if_true] at hurl ⊢
      exact ih hurl
    · simp only [appendLoginOutput, hc, Bool.false_eq_true, if_false] at hurl ⊢
      cases hu : s.url with
      | none =>
        rw [hu] at hurl
        exact hurl
      | some u =>
        rw [hu] at hurl
        simp at hurl
  | @failed s message h ih =>
    intro hurl
    simp only [handleSpawnFailure] at hurl ⊢
    exact ih hurl
  | @closed s ec h ih =>
    intro hurl
    rw [handleCloseUrl] at hurl
    rw [handleCloseOutput]
    exact ih hurl
  | @cancelled s h ih =>
    intro hurl
    rw [cancelSessionUrl] at hurl
    rw [cancelSessionOutput]
    exact ih hurl

/-! ## Sample states used by the witnesses -/

/-- A state with one provider session and one active stream for `chat-1`. -/
def sampleCodexState : CodexState :=
  { providerSessions :=
      MapStr.setKey MapStr.emptyMap "chat-1"
        { providerId := 7, cwd := "/work", authFingerprint := none }
    activeStreams :=
      MapStr.setKey MapStr.emptyMap "chat-1"
        { runId := "run-1", controllerId := 3 }
    abortedControllers := []
    cleanedProviders := []
    nextId := 10 }

/-! ## Claims -/

/-- C1: at most one active generation stream per sub-chat.  Starting the
chat subscription while an entry is registered for the sub-chat aborts that
registered controller and tears down (cleans up and removes) the
provider session, and registers the new run id; the finish (`finally`) and
teardown paths drop the registry entry only while it still carries their own
run id, so a superseded run never deletes the registration of its
successor. -/
theorem codexStreamSupersession (s : CodexState) (subChatId runId : String) :
    (∀ e, s.activeStreams subChatId = some e →
      e.controllerId ∈
        (chatSubscribe s subChatId runId).state.abortedControllers ∧
      (∀ ps, s.providerSessions subChatId = some ps →
        ps.providerId ∈
          (chatSubscribe s subChatId runId).state.cleanedProviders) ∧
      (chatSubscribe s subChatId runId).state.providerSessions subChatId =
        none ∧
      (chatSubscribe s subChatId runId).state.activeStreams subChatId =
        some { runId := runId,
               controllerId := (chatSubscribe s subChatId runId).controllerId }) ∧
    (∀ (t : CodexState) (e : ActiveCodexStream),
      t.activeStreams subChatId = some e → e.runId ≠ runId →
      chatFinally t subChatId runId = t ∧
      ∀ cid, (chatTeardown t subChatId runId cid).activeStreams =
        t.activeStreams) ∧
    (∀ t : CodexState, t.activeStreams subChatId = none →
      chatFinally t subChatId runId = t) ∧
    (∀ (t : CodexState) (e : ActiveCodexStream),
      t.activeStreams subChatId = some e → e.runId = runId →
      (chatFinally t subChatId runId).activeStreams subChatId = none ∧
      ∀ cid, (chatTeardown t subChatId runId cid).activeStreams subChatId =
        none) := by
  refine ⟨?_, ?_, ?_, ?_⟩
  · intro e he
    cases hps : s.providerSessions subChatId with
    | none =>
      refine ⟨?_, ?_, ?_, ?_⟩ <;>
        simp [chatSubscribe, he, cleanupProvider, abortCtrl, hps,
          mapStrSetSelf]
    | some ps =>
      refine ⟨?_, ?_, ?_, ?_⟩ <;>
        simp [chatSubscribe, he, cleanupProvider, abortCtrl, hps,
          mapStrSetSelf, mapStrDelSelf]
  · intro t e he hne
    constructor
    · simp [chatFinally, he, hne]
    · intro cid
      simp [chatTeardown, chatFinally, abortCtrl, he, hne]
  · intro t ht
    simp [chatFinally, ht]
  · intro t e he hrun
    constructor
    · simp [chatFinally, he, hrun, mapStrDelSelf]
    · intro cid
      simp [chatTeardown, chatFinally, abortCtrl, he, hrun, mapStrDelSelf]

/-- Witness for C1 at a concrete state: the running stream of `chat-1` is
superseded by run `run-2`. -/
theorem codexStreamSupersessionWitness :
    3 ∈ (chatSubscribe sampleCodexState "chat-1" "run-2").state.abortedControllers ∧
    7 ∈ (chatSubscribe sampleCodexState "chat-1" "run-2").state.cleanedProviders ∧
    (chatSubscribe sampleCodexState "chat-1" "run-2").state.providerSessions
      "chat-1" = none ∧
    (chatSubscribe sampleCodexState "chat-1" "run-2").state.activeStreams
      "chat-1" =
      some { runId := "run-2",
             controllerId :=
               (chatSubscribe sampleCodexState "chat-1" "run-2").controllerId } ∧
    chatFinally sampleCodexState "chat-1" "run-2" = sampleCodexState := by
  have h := codexStreamSupersession sampleCodexState "chat-1" "run-2"
  have h1 := h.1 { runId := "run-1", controllerId := 3 } (by decide)
  have h2 := (h.2.1 sampleCodexState { runId := "run-1", controllerId := 3 }
    (by decide) (by decide)).1
  exact ⟨h1.1, h1.2.1 { providerId := 7, cwd := "/work", authFingerprint := none }
    (by decide), h1.2.2.1, h1.2.2.2, h2⟩

/-- C2: the stale-cancel guard of the `cancel` mutation.  With no registered
stream, or with a different registered run id, the whole state is unchanged
and the result is not-cancelled (`ignoredStale` exactly in the second case);
with the matching run id the controller is aborted, the provider session is
torn down, the registry entry is removed and the result is cancelled. -/
theorem codexCancelStaleGuard (s : CodexState) (subChatId runId : String) :
    (s.activeStreams subChatId = none →
      cancelRun s subChatId runId =
        (s, { cancelled := false, ignoredStale := false })) ∧
    (∀ e, s.activeStreams subChatId = some e → e.runId ≠ runId →
      cancelRun s subChatId runId =
        (s, { cancelled := false, ignoredStale := true })) ∧
    (∀ e, s.activeStreams subChatId = some e → e.runId = runId →
      e.controllerId ∈ (cancelRun s subChatId runId).1.abortedControllers ∧
      (∀ ps, s.providerSessions subChatId = some ps →
        ps.providerId ∈ (cancelRun s subChatId runId).1.cleanedProviders) ∧
      (cancelRun s subChatId runId).1.providerSessions subChatId = none ∧
      (cancelRun s subChatId runId).1.activeStreams subChatId = none ∧
      (cancelRun s subChatId runId).2 =
        { cancelled := true, ignoredStale := false }) := by
  refine ⟨?_, ?_, ?_⟩
  · intro h
    simp [cancelRun, h]
  · intro e he hne
    simp [cancelRun, he, hne]
  · intro e he hrun
    cases hps : s.providerSessions subChatId with
    | none =>
      refine ⟨?_, ?_, ?_, ?_, ?_⟩ <;>
        simp [cancelRun, he, hrun, cleanupProvider, abortCtrl, hps,
          mapStrDelSelf]
    | some ps =>
      refine ⟨?_, ?_, ?_, ?_, ?_⟩ <;>
        simp [cancelRun, he, hrun, cleanupProvider, abortCtrl, hps,
          mapStrDelSelf]

/-- Witness for C2 at a concrete state: a stale run id is ignored without
touching the state, and the registered run id cancels. -/
theorem codexCancelStaleGuardWitness :
    cancelRun sampleCodexState "chat-1" "stale-run" =
      (sampleCodexState, { cancelled := false, ignoredStale := true }) ∧
    cancelRun sampleCodexState "other-chat" "run-1" =
      (sampleCodexState, { cancelled := false, ignoredStale := false }) ∧
    (cancelRun sampleCodexState "chat-1" "run-1").2 =
      { cancelled := true, ignoredStale := false } ∧
    (cancelRun sampleCodexState "chat-1" "run-1").1.activeStreams "chat-1" =
      none := by
  have h1 := codexCancelStaleGuard sampleCodexState "chat-1" "stale-run"
  have h2 := codexCancelStaleGuard sampleCodexState "other-chat" "run-1"
  have h3 := codexCancelStaleGuard sampleCodexState "chat-1" "run-1"
  have e3 := h3.2.2 { runId := "run-1", controllerId := 3 } (by decide) rfl
  exact ⟨h1.2.1 { runId := "run-1", controllerId := 3 } (by decide) (by decide),
    h2.1 (by decide), e3.2.2.2.2, e3.2.2.2.1⟩

/-- C3: provider-session caching.  The cached provider of a sub-chat is
returned with the state untouched exactly when its stored working directory
and auth fingerprint both match the request; any other request against an
existing entry cleans up the old provider, removes it, and creates and
stores a new provider session carrying the requested working directory and
fingerprint.  The fingerprint of a supplied key is the SHA-256 hex digest of
the trimmed key, and `none` when no non-empty key is supplied. -/
theorem codexProviderCacheInvalidation (s : CodexState)
    (subChatId cwd : String) (authConfig : Option String) :
    (∀ ex, s.providerSessions subChatId = some ex →
      ((ex.cwd = cwd ∧ ex.authFingerprint = getAuthFingerprint authConfig) →
        getOrCreateProvider s subChatId cwd authConfig =
          { state := s, providerId := ex.providerId }) ∧
      (¬(ex.cwd = cwd ∧ ex.authFingerprint = getAuthFingerprint authConfig) →
        ex.providerId ∈
          (getOrCreateProvider s subChatId cwd authConfig).state.cleanedProviders ∧
        (getOrCreateProvider s subChatId cwd authConfig).state.providerSessions
          subChatId =
          some { providerId := s.nextId, cwd := cwd,
                 authFingerprint := getAuthFingerprint authConfig } ∧
        (getOrCreateProvider s subChatId cwd authConfig).providerId =
          s.nextId)) ∧
    (∀ apiKey, getAuthFingerprint (some apiKey) =
      if (jsTrim apiKey).isEmpty then none
      else some (sha256Hex (jsTrim apiKey))) ∧
    getAuthFingerprint none = none := by
  refine ⟨?_, ?_, rfl⟩
  · intro ex hex
    constructor
    · intro hmatch
      simp [getOrCreateProvider, hex, hmatch]
    · intro hmiss
      refine ⟨?_, ?_, ?_⟩ <;>
        simp [getOrCreateProvider, hex, hmiss, createProviderSession,
          mapStrSetSelf]
  · intro apiKey
    rfl

/-- Witness for C3 at a concrete state: matching request reuses the cached
provider, a changed working directory rebuilds it. -/
theorem codexProviderCacheInvalidationWitness :
    getOrCreateProvider sampleCodexState "chat-1" "/work" none =
      { state := sampleCodexState, providerId := 7 } ∧
    7 ∈ (getOrCreateProvider sampleCodexState "chat-1" "/other"
          none).state.cleanedProviders ∧
    (getOrCreateProvider sampleCodexState "chat-1" "/other"
        none).state.providerSessions "chat-1" =
      some { providerId := 10, cwd := "/other", authFingerprint := none } := by
  have h1 := (codexProviderCacheInvalidation sampleCodexState "chat-1" "/work"
    none).1 { providerId := 7, cwd := "/work", authFingerprint := none }
    (by decide)
  have h2 := (codexProviderCacheInvalidation sampleCodexState "chat-1" "/other"
    none).1 { providerId := 7, cwd := "/work", authFingerprint := none }
    (by decide)
  have h2m := h2.2 (by decide)
  exact ⟨h1.1 ⟨rfl, rfl⟩, h2m.1, h2m.2.1⟩

/-- C4: the extracted auth URL is set at most once and is sticky.  While
the session has no URL, an appended chunk leaves the URL equal to the rescan
of the whole accumulated output (the first URL in it whose hostname is not a
localhost name, per `extractFirstNonLocalhostUrl` and
`isLocalhostHostname`); once the URL is set, no later chunk changes it. -/
theorem codexLoginUrlStickyFirstNonLocalhost (s : CodexLoginSession)
    (chunk : String) (hs : LoginReachable s) :
    (∀ u, s.url = some u → (appendLoginOutput s chunk).url = some u) ∧
    (s.url = none →
      (appendLoginOutput s chunk).url =
        extractFirstNonLocalhostUrl ((appendLoginOutput s chunk).output)) := by
  constructor
  · intro u hu
    by_cases hc : (stripAnsi chunk).isEmpty
    · simp only [appendLoginOutput, hc, if_true]
      exact hu
    · simp only [appendLoginOutput, hc, Bool.false_eq_true, if_false]
      simp [hu]
  · intro hu
    by_cases hc : (stripAnsi chunk).isEmpty
    · simp only [appendLoginOutput, hc, if_true]
      rw [hu, loginUrlNoneInv hs hu]
    · simp only [appendLoginOutput, hc, Bool.false_eq_true, if_false]
      simp [hu]

/-- The chunk used by the C4 witness. -/
def sampleLoginChunk : String := "go to https://auth.example.com/x now"

/-- Witness for C4: on a fresh session the appended chunk surfaces the first
non-localhost URL, and a later chunk does not change it. -/
theorem codexLoginUrlStickyWitness :
    (appendLoginOutput (freshLoginSession "sess" 1) sampleLoginChunk).url =
      extractFirstNonLocalhostUrl
        ((appendLoginOutput (freshLoginSession "sess" 1)
          sampleLoginChunk).output) ∧
    (appendLoginOutput
        (appendLoginOutput (freshLoginSession "sess" 1) sampleLoginChunk)
        "tail http://second.example.com").url =
      some "https://auth.example.com/x" := by
  constructor
  · exact (codexLoginUrlStickyFirstNonLocalhost (freshLoginSession "sess" 1)
      sampleLoginChunk (LoginReachable.init "sess" 1)).2 rfl
  · exact (codexLoginUrlStickyFirstNonLocalhost
      (appendLoginOutput (freshLoginSession "sess" 1) sampleLoginChunk)
      "tail http://second.example.com"
      (LoginReachable.chunk sampleLoginChunk (LoginReachable.init "sess" 1))).1
      "https://auth.example.com/x" (by decide)

/-- C5: login output accumulates monotonically.  Appending a chunk extends
the output with the stripped chunk (in particular the previous output is a
prefix of the new output), and `getLoginSession` returns exactly the
accumulated output of the session. -/
theorem codexLoginOutputMonotone (s : CodexLoginSession) (chunk : String)
    (sessions : List (String × CodexLoginSession)) (sessionId : String) :
    (appendLoginOutput s chunk).output = s.output ++ stripAnsi chunk ∧
    (∃ t, (appendLoginOutput s chunk).output = s.output ++ t) ∧
    (∀ sess, lookupA sessions sessionId = some sess →
      getLoginSession sessions sessionId =
        some (toLoginSessionResponse sess) ∧
      (toLoginSessionResponse sess).output = sess.output) := by
  refine ⟨appendOutputEq s chunk,
    ⟨stripAnsi chunk, appendOutputEq s chunk⟩, ?_⟩
  intro sess h
  exact ⟨by simp [getLoginSession, h], rfl⟩

/-- Witness for C5 at a concrete session and registry. -/
theorem codexLoginOutputMonotoneWitness :
    getLoginSession [("sess", freshLoginSession "sess" 1)] "sess" =
      some (toLoginSessionResponse (freshLoginSession "sess" 1)) ∧
    (appendLoginOutput (freshLoginSession "sess" 1) "hello").output =
      "" ++ stripAnsi "hello" := by
  have h := codexLoginOutputMonotone (freshLoginSession "sess" 1) "hello"
    [("sess", freshLoginSession "sess" 1)] "sess"
  exact ⟨(h.2.2 (freshLoginSession "sess" 1) (by decide)).1, h.1⟩

/-- C6 (amended): every login session state is one of the four states;
every chunk has ANSI CSI and OSC sequences stripped by a single
left-to-right scan before being appended, and pollers see exactly the
accumulated stripped output; a chunk that is one complete CSI sequence
contributes nothing.  (As stated, the claim that the accumulated output is
ANSI-free is refuted by `codexLoginAnsiFreeCex`: a sequence split across
chunk boundaries survives per-chunk stripping.) -/
theorem codexLoginAnsiStripAmended (s : CodexLoginSession) (chunk : String) :
    (s.state = CodexLoginSessionState.running ∨
      s.state = CodexLoginSessionState.success ∨
      s.state = CodexLoginSessionState.error ∨
      s.state = CodexLoginSessionState.cancelled) ∧
    (appendLoginOutput s chunk).output = s.output ++ stripAnsi chunk ∧
    (toLoginSessionResponse s).output = s.output ∧
    appendLoginOutput s "\x1B[31m" = s := by
  refine ⟨?_, appendOutputEq s chunk, rfl, rfl⟩
  cases h : s.state
  · exact Or.inl rfl
  · exact Or.inr (Or.inl rfl)
  · exact Or.inr (Or.inr (Or.inl rfl))
  · exact Or.inr (Or.inr (Or.inr rfl))

/-- Counterexample to C6 as stated: the escape character and the body of a
CSI colour sequence arrive in different chunks; each chunk alone is
unchanged by `stripAnsi`, and the accumulated output then contains a full
ANSI CSI sequence. -/
theorem codexLoginAnsiFreeCex :
    hasAnsiSequence
      ((appendLoginOutput
          (appendLoginOutput (freshLoginSession "sess" 1) "\x1B")
          "[31m").output) = true := by
  decide

/-- Soundness of `getActiveLoginSession`: a returned session is running with
a live, un-killed process. -/
theorem getActiveSomeSpec (sessions : List (String × CodexLoginSession))
    (ex : CodexLoginSession) (h : getActiveLoginSession sessions = some ex) :
    ex.state = CodexLoginSessionState.running ∧
      ∃ p, ex.process = some p ∧ p.killed = false := by
  induction sessions with
  | nil => simp [getActiveLoginSession] at h
  | cons head rest ih =>
    obtain ⟨k, sess⟩ := head
    simp only [getActiveLoginSession] at h
    cases hp : sess.process with
    | none =>
      simp only [hp] at h
      exact ih h
    | some p =>
      simp only [hp] at h
      by_cases hc : sess.state = CodexLoginSessionState.running ∧
          p.killed = false
      · rw [if_pos hc] at h
        injection h with h
        subst h
        exact ⟨hc.1, p, hp, hc.2⟩
      · rw [if_neg hc] at h
        exact ih h

/-- Completeness of `getActiveLoginSession`: when it finds nothing, no
registered session is running with a live, un-killed process. -/
theorem getActiveNoneSpec (sessions : List (String × CodexLoginSession))
    (h : getActiveLoginSession sessions = none) :
    ∀ entry ∈ sessions,
      ¬(entry.2.state = CodexLoginSessionState.running ∧
        ∃ p, entry.2.process = some p ∧ p.killed = false) := by
  induction sessions with
  | nil =>
    intro entry he
    simp at he
  | cons head rest ih =>
    intro entry he
    obtain ⟨k, sess⟩ := head
    simp only [getActiveLoginSession] at h
    cases hp : sess.process with
    | none =>
      simp only [hp] at h
      rcases List.mem_cons.mp he with he1 | he2
      · subst he1
        rintro ⟨hst, p, hpp, hk⟩
        rw [hp] at hpp
        simp at hpp
      · exact ih h entry he2
    | some p =>
      simp only [hp] at h
      by_cases hc : sess.state = CodexLoginSessionState.running ∧
          p.killed = false
      · rw [if_pos hc] at h
        simp at h
      · rw [if_neg hc] at h
        rcases List.mem_cons.mp he with he1 | he2
        · subst he1
          rintro ⟨hst, q, hpp, hk⟩
          rw [hp] at hpp
          injection hpp with hq
          subst hq
          exact hc ⟨hst, hk⟩
        · exact ih h entry he2

/-- C7: at most one login CLI process at a time.  When some registered
session is running with a live process, `startLogin` spawns nothing and
returns the snapshot of that session with the registry unchanged; a fresh
session under a fresh id is spawned and registered only when no running
session exists. -/
theorem codexSingleLoginProcess (sessions : List (String × CodexLoginSession))
    (freshId : String) (freshPid : Nat) :
    (∀ ex, getActiveLoginSession sessions = some ex →
      startLogin sessions freshId freshPid =
        { sessions := sessions, response := toLoginSessionResponse ex,
          spawned := false } ∧
      ex.state = CodexLoginSessionState.running ∧
      ∃ p, ex.process = some p ∧ p.killed = false) ∧
    (getActiveLoginSession sessions = none →
      (startLogin sessions freshId freshPid).spawned = true ∧
      lookupA (startLogin sessions freshId freshPid).sessions freshId =
        some (freshLoginSession freshId freshPid) ∧
      (startLogin sessions freshId freshPid).response =
        toLoginSessionResponse (freshLoginSession freshId freshPid)) ∧
    (getActiveLoginSession sessions = none →
      ∀ entry ∈ sessions,
        ¬(entry.2.state = CodexLoginSessionState.running ∧
          ∃ p, entry.2.process = some p ∧ p.killed = false)) := by
  refine ⟨?_, ?_, getActiveNoneSpec sessions⟩
  · intro ex hex
    refine ⟨?_, getActiveSomeSpec sessions ex hex⟩
    simp [startLogin, hex]
  · intro h
    refine ⟨?_, ?_, ?_⟩ <;> simp [startLogin, h, lookupInsertSelf]

/-- Witness for C7: a registry with one running session short-circuits
`startLogin`; the empty registry spawns and registers a fresh session. -/
theorem codexSingleLoginProcessWitness :
    startLogin [("sess", freshLoginSession "sess" 1)] "fresh" 2 =
      { sessions := [("sess", freshLoginSession "sess" 1)],
        response := toLoginSessionResponse (freshLoginSession "sess" 1),
        spawned := false } ∧
    (startLogin [] "fresh" 2).spawned = true ∧
    lookupA (startLogin ([] : List (String × CodexLoginSession)) "fresh"
        2).sessions "fresh" = some (freshLoginSession "fresh" 2) := by
  have h1 := (codexSingleLoginProcess [("sess", freshLoginSession "sess" 1)]
    "fresh" 2).1 (freshLoginSession "sess" 1) (by decide)
  have h2 := (codexSingleLoginProcess ([] : List (String × CodexLoginSession))
    "fresh" 2).2.1 (by decide)
  exact ⟨h1.1, h2.1, h2.2.1⟩

theorem cancelSessionState (session : CodexLoginSession) :
    (cancelLoginSession session).state = CodexLoginSessionState.cancelled := by
  unfold cancelLoginSession
  cases h : session.process with
  | none => simp [h]
  | some p => by_cases hk : p.killed = true <;> simp [h, hk]

theorem cancelSessionError (session : CodexLoginSession) :
    (cancelLoginSession session).error = none := by
  unfold cancelLoginSession
  cases h : session.process with
  | none => simp [h]
  | some p => by_cases hk : p.killed = true <;> simp [h, hk]

/-- A cancelled state survives any later output chunk or close event. -/
theorem applyEventCancelled (session : CodexLoginSession) (e : LoginEvent)
    (h : session.state = CodexLoginSessionState.cancelled) :
    (applyLoginEvent session e).state = CodexLoginSessionState.cancelled := by
  cases e with
  | chunk c =>
    rw [applyLoginEvent, appendStateEq]
    exact h
  | closed ec =>
    rw [applyLoginEvent]
    unfold handleClose
    simp [h]

theorem foldlEventsCancelled (events : List LoginEvent) :
    ∀ session : CodexLoginSession,
      session.state = CodexLoginSessionState.cancelled →
      (events.foldl applyLoginEvent session).state =
        CodexLoginSessionState.cancelled := by
  induction events with
  | nil => intro session h; exact h
  | cons e rest ih =>
    intro session h
    exact ih _ (applyEventCancelled session e h)

/-- C8: once `cancelLogin` marks a session cancelled (clearing the error and
killing a live process), the state stays cancelled under every later chunk
and close event; the close event still records the exit code, even exit
code 0. -/
theorem codexCancelledLoginStays (s : CodexLoginSession)
    (events : List LoginEvent) :
    (cancelLoginSession s).state = CodexLoginSessionState.cancelled ∧
    (cancelLoginSession s).error = none ∧
    (∀ p, s.process = some p →
      ∃ q, (cancelLoginSession s).process = some q ∧ q.killed = true) ∧
    (∀ ec, (handleClose (cancelLoginSession s) ec).state =
        CodexLoginSessionState.cancelled ∧
      (handleClose (cancelLoginSession s) ec).exitCode = ec) ∧
    (events.foldl applyLoginEvent (cancelLoginSession s)).state =
      CodexLoginSessionState.cancelled := by
  refine ⟨cancelSessionState s, cancelSessionError s, ?_, ?_, ?_⟩
  · intro p hp
    by_cases hk : p.killed = true
    · refine ⟨p, ?_, hk⟩
      simp [cancelLoginSession, hp, hk]
    · refine ⟨{ p with killed := true }, ?_, rfl⟩
      simp [cancelLoginSession, hp, hk]
  · intro ec
    constructor
    · unfold handleClose
      simp [cancelSessionState]
    · unfold handleClose
      simp [cancelSessionState]
  · exact foldlEventsCancelled events _ (cancelSessionState s)

/-- Witness for C8: cancelling a fresh running session, then streaming a
chunk and closing with exit code 0, leaves the state cancelled with the
exit code recorded. -/
theorem codexCancelledLoginStaysWitness :
    (cancelLoginSession (freshLoginSession "sess" 1)).state =
      CodexLoginSessionState.cancelled ∧
    (∃ q, (cancelLoginSession (freshLoginSession "sess" 1)).process =
      some q ∧ q.killed = true) ∧
    (List.foldl applyLoginEvent (cancelLoginSession (freshLoginSession "sess" 1))
      [LoginEvent.chunk "bye", LoginEvent.closed (some 0)]).state =
      CodexLoginSessionState.cancelled ∧
    (handleClose (cancelLoginSession (freshLoginSession "sess" 1))
      (some 0)).exitCode = some 0 := by
  have h := codexCancelledLoginStays (freshLoginSession "sess" 1)
    [LoginEvent.chunk "bye", LoginEvent.closed (some 0)]
  exact ⟨h.1, h.2.2.1 { pid := 1, killed := false } rfl, h.2.2.2.2,
    (h.2.2.2.1 (some 0)).2⟩

theorem dropPrefixListAppend (p t : List Char) :
    dropPrefixList p (p ++ t) = some t := by
  induction p with
  | nil => rfl
  | cons c cs ih => simp [dropPrefixList, ih]

theorem gptPrefixNe (lvl : String) :
    ("gpt-5.3-codex/" ++ lvl) ≠ "gpt-5.3-codex" := by
  intro h
  have h2 : ("gpt-5.3-codex/" ++ lvl).data.length =
      ("gpt-5.3-codex" : String).data.length := by rw [h]
  rw [String.data_append, List.length_append] at h2
  have h3 : ("gpt-5.3-codex/" : String).data.length = 14 := by decide
  have h4 : ("gpt-5.3-codex" : String).data.length = 13 := by decide
  rw [h3, h4] at h2
  omega

theorem gptDropPrefix (lvl : String) :
    dropPrefixStr "gpt-5.3-codex/" ("gpt-5.3-codex/" ++ lvl) = some lvl := by
  unfold dropPrefixStr
  rw [String.data_append, dropPrefixListAppend]
  rfl

/-- C9: the model rewrite applied when a chat request carries an app-managed
API key.  With a key that is non-empty after trimming, `gpt-5.3-codex` goes
to `gpt-5.2-codex/high`, and a `gpt-5.3-codex/` thinking level is kept when
it is one of low/medium/high/xhigh and replaced by high otherwise; every
other model id, and every request without such a key, passes through
unchanged. -/
theorem codexModelRewrite :
    (∀ modelId, preprocessCodexModelName modelId none = modelId) ∧
    (∀ modelId apiKey, (jsTrim apiKey).isEmpty = true →
      preprocessCodexModelName modelId (some apiKey) = modelId) ∧
    (∀ apiKey, (jsTrim apiKey).isEmpty = false →
      preprocessCodexModelName "gpt-5.3-codex" (some apiKey) =
        "gpt-5.2-codex/high" ∧
      (∀ lvl, (lvl = "low" ∨ lvl = "medium" ∨ lvl = "high" ∨ lvl = "xhigh") →
        preprocessCodexModelName ("gpt-5.3-codex/" ++ lvl) (some apiKey) =
          "gpt-5.2-codex/" ++ lvl) ∧
      (∀ lvl, ¬(lvl = "low" ∨ lvl = "medium" ∨ lvl = "high" ∨ lvl = "xhigh") →
        preprocessCodexModelName ("gpt-5.3-codex/" ++ lvl) (some apiKey) =
          "gpt-5.2-codex/high") ∧
      (∀ modelId, modelId ≠ "gpt-5.3-codex" →
        dropPrefixStr "gpt-5.3-codex/" modelId = none →
        preprocessCodexModelName modelId (some apiKey) = modelId)) := by
  refine ⟨fun modelId => rfl, ?_, ?_⟩
  · intro modelId apiKey hk
    simp [preprocessCodexModelName, hk]
  · intro apiKey hk
    refine ⟨?_, ?_, ?_, ?_⟩
    · simp [preprocessCodexModelName, hk]
    · intro lvl hlvl
      have hne := gptPrefixNe lvl
      simp [preprocessCodexModelName, hk, hne, gptDropPrefix, hlvl]
    · intro lvl hlvl
      have hne := gptPrefixNe lvl
      push_neg at hlvl
      obtain ⟨h1, h2, h3, h4⟩ := hlvl
      simp [preprocessCodexModelName, hk, hne, gptDropPrefix, h1, h2, h3, h4]
    · intro modelId hne hdrop
      simp [preprocessCodexModelName, hk, hne, hdrop]

/-- Witness for C9 on concrete model ids and keys. -/
theorem codexModelRewriteWitness :
    preprocessCodexModelName "gpt-5.3-codex" (some "sk-key") =
      "gpt-5.2-codex/high" ∧
    preprocessCodexModelName ("gpt-5.3-codex/" ++ "xhigh") (some "sk-key") =
      "gpt-5.2-codex/" ++ "xhigh" ∧
    preprocessCodexModelName ("gpt-5.3-codex/" ++ "turbo") (some "sk-key") =
      "gpt-5.2-codex/high" ∧
    preprocessCodexModelName "o3" (some "sk-key") = "o3" ∧
    preprocessCodexModelName "gpt-5.3-codex" (some "   ") =
      "gpt-5.3-codex" := by
  have h := codexModelRewrite
  have hk : (jsTrim "sk-key").isEmpty = false := by decide
  have h3 := h.2.2 "sk-key" hk
  exact ⟨h3.1, h3.2.1 "xhigh" (by decide), h3.2.2.1 "turbo" (by decide),
    h3.2.2.2 "o3" (by decide) (by decide),
    h.2.1 "gpt-5.3-codex" "   " (by decide)⟩
